import Mathlib

/-!
Verification development for the nuts-container repository.

The Rust sources are shallowly embedded: bytes are `Nat` values (each in
`0 ≤ b < 256` for well-formed inputs), byte buffers are `List Nat`, machine
integers are `Nat` with explicit big-endian conversions, fallible code
returns `Except`.
-/

set_option autoImplicit false

/-- Big-endian encoding of `v` into `w` bytes (`uN::to_be_bytes`). -/
def beBytes (w v : Nat) : List Nat :=
  (List.range w).reverse.map (fun i => v / 256 ^ i % 256)

/-- Big-endian value of a byte list (`uN::from_be_bytes`). -/
def beVal (bs : List Nat) : Nat :=
  bs.foldl (fun a b => a * 256 + b) 0

namespace NutsBytes

/-- `IntType` of nuts-bytes errors: the width tags used in
`Error::InvalidInteger { expected, got }`. -/
inductive IntType where
  | u8 | u16 | u32 | u64 | u128
deriving DecidableEq, Repr

/-- Errors of the nuts-bytes reader that the embedded fragment can raise:
`Error::Eof` and `Error::InvalidInteger`. -/
inductive Error where
  | eof
  | invalidInteger (expected got : IntType)
deriving DecidableEq, Repr

/-- `TakeBytes::take_bytes(n)` over an in-memory source: splits off the first
`n` bytes, `Eof` if fewer are available. -/
def takeBytes (n : Nat) (src : List Nat) : Except Error (List Nat × List Nat) :=
  if n ≤ src.length then .ok (src.take n, src.drop n) else .error .eof

/-- `Reader::read_fix_u8`. -/
def read_fix_u8 (src : List Nat) : Except Error (Nat × List Nat) :=
  (takeBytes 1 src).map (fun p => (beVal p.1, p.2))

/-- `Reader::read_fix_u16`. -/
def read_fix_u16 (src : List Nat) : Except Error (Nat × List Nat) :=
  (takeBytes 2 src).map (fun p => (beVal p.1, p.2))

/-- `Reader::read_fix_u32`. -/
def read_fix_u32 (src : List Nat) : Except Error (Nat × List Nat) :=
  (takeBytes 4 src).map (fun p => (beVal p.1, p.2))

/-- `Reader::read_fix_u64`. -/
def read_fix_u64 (src : List Nat) : Except Error (Nat × List Nat) :=
  (takeBytes 8 src).map (fun p => (beVal p.1, p.2))

/-- `Reader::read_fix_u128`. -/
def read_fix_u128 (src : List Nat) : Except Error (Nat × List Nat) :=
  (takeBytes 16 src).map (fun p => (beVal p.1, p.2))

/-- Sentinel byte `VAR16 = 251`. -/
def VAR16 : Nat := 251
/-- Sentinel byte `VAR32 = 252`. -/
def VAR32 : Nat := 252
/-- Sentinel byte `VAR64 = 253`. -/
def VAR64 : Nat := 253
/-- Sentinel byte `VAR128 = 254`. -/
def VAR128 : Nat := 254

/-- `Reader::read_var_u16`. -/
def read_var_u16 (src : List Nat) : Except Error (Nat × List Nat) := do
  let (n, src) ← read_fix_u8 src
  if n = VAR16 then read_fix_u16 src
  else if n = VAR32 then .error (.invalidInteger .u16 .u32)
  else if n = VAR64 then .error (.invalidInteger .u16 .u64)
  else if n = VAR128 then .error (.invalidInteger .u16 .u128)
  else .ok (n, src)

/-- `Reader::read_var_u32`. -/
def read_var_u32 (src : List Nat) : Except Error (Nat × List Nat) := do
  let (n, src) ← read_fix_u8 src
  if n = VAR16 then read_fix_u16 src
  else if n = VAR32 then read_fix_u32 src
  else if n = VAR64 then .error (.invalidInteger .u32 .u64)
  else if n = VAR128 then .error (.invalidInteger .u32 .u128)
  else .ok (n, src)

/-- `Reader::read_var_u64`.  Note: the `VAR128` arm of the source passes
`IntType::U32` as the `expected` argument (reader.rs line 143); the embedding
reproduces that literally. -/
def read_var_u64 (src : List Nat) : Except Error (Nat × List Nat) := do
  let (n, src) ← read_fix_u8 src
  if n = VAR16 then read_fix_u16 src
  else if n = VAR32 then read_fix_u32 src
  else if n = VAR64 then read_fix_u64 src
  else if n = VAR128 then .error (.invalidInteger .u32 .u128)
  else .ok (n, src)

/-- `Reader::read_var_u128`. -/
def read_var_u128 (src : List Nat) : Except Error (Nat × List Nat) := do
  let (n, src) ← read_fix_u8 src
  if n = VAR16 then read_fix_u16 src
  else if n = VAR32 then read_fix_u32 src
  else if n = VAR64 then read_fix_u64 src
  else if n = VAR128 then read_fix_u128 src
  else .ok (n, src)

/-- Modelled from the spec: the variable-integer emitter of the nuts-bytes
`Writer` (writer.rs is not part of the source snapshot).  Emitting a value
with the width-`w` sentinel writes the sentinel byte `251|252|253|254`
followed by the value's `2|4|8|16` big-endian bytes. -/
def emit_var : IntType → Nat → List Nat
  | .u8, v => [v % 256]
  | .u16, v => VAR16 :: beBytes 2 v
  | .u32, v => VAR32 :: beBytes 4 v
  | .u64, v => VAR64 :: beBytes 8 v
  | .u128, v => VAR128 :: beBytes 16 v

end NutsBytes

namespace NutsContainer

/-- `NoPasswordError` of src/container/password.rs: carries an optional
message from the password callback. -/
structure NoPasswordError where
  msg : Option String
deriving DecidableEq, Repr

/-- `PasswordStore` of src/container/password.rs.  The callback is a pure
value in the embedding: its (fixed) outcome `Except String password` stands
for the Rust closure `Fn() -> Result<Vec<u8>, String>`; `none` means no
callback was assigned.  `value` caches the password bytes. -/
structure PasswordStore where
  callback : Option (Except String (List Nat))
  value : Option (List Nat)

/-- `PasswordStore::new`. -/
def PasswordStore.new (cb : Option (Except String (List Nat))) : PasswordStore :=
  { callback := cb, value := none }

/-- `PasswordStore::value`: returns the password (or a `NoPasswordError`),
the updated store, and the number of callback invocations this call made. -/
def PasswordStore.getValue (s : PasswordStore) :
    Except NoPasswordError (List Nat) × PasswordStore × Nat :=
  match s.value with
  | some v => (.ok v, s, 0)
  | none =>
    match s.callback with
    | none => (.error ⟨none⟩, s, 0)
    | some cb =>
      match cb with
      | .error cause => (.error ⟨some cause⟩, s, 1)
      | .ok v => (.ok v, { s with value := some v }, 1)

/-- Container error fragment reachable from `Container::read`/`write`
(src/container.rs): the null-id rejection and the backend/cipher wrappers. -/
inductive CError where
  | nullId
  | backend
  | cipher
deriving DecidableEq, Repr

/-- One backend call recorded by the instrumented container operations.
`bread`/`bwrite` carry the block id. -/
inductive BackendOp where
  | bread (id : Nat)
  | bwrite (id : Nat)
deriving DecidableEq, Repr

/-- Container state: the fixed block size and the backend's block store
(`MemoryBackend` is modelled from the spec: an id-to-bytes map where an
acquired, never-written block reads as all zeros).  Block ids are `Nat`
with `0` as the null id. -/
structure ContainerSt where
  blockSize : Nat
  store : List (Nat × List Nat)
deriving DecidableEq, Repr

/-- Whether a block id is the null id (`id.is_null()`). -/
def isNull (id : Nat) : Prop := id = 0

instance (id : Nat) : Decidable (isNull id) := by
  unfold isNull; infer_instance

/-- Backend read of one block: the stored bytes, or all zeros for a block
that was never written.  Modelled from the spec's memory backend. -/
def backendRead (c : ContainerSt) (id : Nat) : List Nat :=
  match c.store.lookup id with
  | some bs => bs
  | none => List.replicate c.blockSize 0

/-- Backend write of one block: stores the first `block_size` bytes and
returns the number of bytes accepted.  Modelled from the spec's memory
backend. -/
def backendWrite (c : ContainerSt) (id : Nat) (bs : List Nat) : ContainerSt × Nat :=
  ({ c with store := (id, bs.take c.blockSize) :: c.store },
   min c.blockSize bs.length)

/-- `Container::read` (src/container.rs lines 232-248), instrumented with the
list of backend calls it performs.  `dec` is the cipher context's decrypt
(`CipherCtx::decrypt`; cipher.rs is not part of the snapshot, so the cipher
is an explicit function argument).  Returns the bytes copied into the
caller's buffer of capacity `bufLen` and the copied count. -/
def containerRead (dec : List Nat → List Nat) (c : ContainerSt) (id : Nat)
    (bufLen : Nat) : Except CError (List Nat × Nat) × List BackendOp :=
  if isNull id then
    (.error .nullId, [])
  else
    let ctext := backendRead c id
    let ptext := dec ctext
    let n := min ptext.length bufLen
    (.ok (ptext.take n, n), [.bread id])

/-- `Container::write` (src/container.rs lines 269-296), instrumented with
the list of backend calls it performs.  `enc` is the cipher context's
encrypt.  A buffer shorter than the block size is zero-padded before
encryption. -/
def containerWrite (enc : List Nat → List Nat) (c : ContainerSt) (id : Nat)
    (buf : List Nat) : Except CError (ContainerSt × Nat) × List BackendOp :=
  if isNull id then
    (.error .nullId, [])
  else
    let ptext :=
      if buf.length < c.blockSize then
        buf ++ List.replicate (c.blockSize - buf.length) 0
      else buf
    let ctext := enc ptext
    (.ok (backendWrite c id ctext), [.bwrite id])

/-- `Vec<u8>::from_bytes` of nuts-bytes (fixed-int mode): a big-endian `u64`
length followed by that many raw bytes. -/
def readVec8 (src : List Nat) : Except NutsBytes.Error (List Nat × List Nat) := do
  let (len, src) ← NutsBytes.read_fix_u64 src
  NutsBytes.takeBytes len src

/-- Failure of `CipherCtx::decrypt` (cipher.rs is not part of the snapshot;
per the spec a cipher failure is `BadCiphertext`). -/
inductive CipherFailure where
  | badCiphertext
deriving DecidableEq, Repr

/-- Error fragment of `ContainerError` reachable from `Header::read_secret`
(nuts/src/container/header.rs). -/
inductive HError where
  | wrongPassword
  | cipher (e : CipherFailure)
  | bytes (e : NutsBytes.Error)
deriving DecidableEq, Repr

/-- The `Secret` record of nuts/src/container/header.rs: `key`, `iv` and the
backend `settings` (modelled as its serialized bytes), each read as a
length-prefixed byte vector. -/
structure SecretRec where
  key : List Nat
  iv : List Nat
  settings : List Nat
deriving DecidableEq, Repr

/-- `Secret::from_bytes` (nuts/src/container/header.rs lines 64-72). -/
def secretFromBytes (src : List Nat) :
    Except NutsBytes.Error (SecretRec × List Nat) := do
  let (key, src) ← readVec8 src
  let (iv, src) ← readVec8 src
  let (settings, src) ← readVec8 src
  .ok (⟨key, iv, settings⟩, src)

/-- `Header::read_secret` (nuts/src/container/header.rs lines 164-189).
`dec` stands for `|cbuf| CipherCtx::new(cipher, ..).decrypt(kdf.create_key(pw), iv, cbuf)`:
the cipher context and KDF are not part of the snapshot, so decryption is an
explicit function argument.  Reads the length-prefixed ciphertext, decrypts
it, reads the two secret magics and rejects with `WrongPassword` when they
differ, then deserializes the plaintext `Secret`. -/
def read_secret (dec : List Nat → Except CipherFailure (List Nat))
    (buf : List Nat) : Except HError SecretRec :=
  match readVec8 buf with
  | .error e => .error (.bytes e)
  | .ok (cbuf, _) =>
    match dec cbuf with
    | .error e => .error (.cipher e)
    | .ok pbuf =>
      match NutsBytes.read_fix_u32 pbuf with
      | .error e => .error (.bytes e)
      | .ok (m1, rest) =>
        match NutsBytes.read_fix_u32 rest with
        | .error e => .error (.bytes e)
        | .ok (m2, rest) =>
          if m1 ≠ m2 then
            .error .wrongPassword
          else
            match secretFromBytes rest with
            | .error e => .error (.bytes e)
            | .ok (secret, _) => .ok secret

end NutsContainer

namespace HeaderModel

/-- The container magic `b"nuts-io"`. -/
def MAGIC : List Nat := [110, 117, 116, 115, 45, 105, 111]

/-- Cipher descriptor tags of the header (only `None` = tag 0 is exercised
by the embedded scenarios). -/
inductive Cipher where
  | none | aes128ctr | aes128gcm
deriving DecidableEq, Repr

/-- KDF descriptor: tag 0 is `None`; other tags carry PBKDF2 parameters and
are outside the embedded scenarios. -/
inductive Kdf where
  | none
deriving DecidableEq, Repr

/-- The in-memory header of nuts-container (header.rs of the nuts-container
crate; only its tests are part of the snapshot).  `top_id` is the numeric
value of the backend id (`MemId` wraps a `u32`; `Id("4711")` is 4711). -/
structure HeaderM where
  revision : Nat
  cipher : Cipher
  kdf : Kdf
  key : List Nat
  iv : List Nat
  top_id : Option Nat
deriving DecidableEq, Repr

/-- A byte vector with a variable-int `u64` length, as used inside the
revision-1 secret (length 0 is the single byte `0`, length 4 the single
byte `4`). -/
def readVecVar (src : List Nat) : Except NutsBytes.Error (List Nat × List Nat) := do
  let (len, src) ← NutsBytes.read_var_u64 src
  NutsBytes.takeBytes len src

/-- Variable-int `u64` emitter (spec: values `≤ 250` are the byte itself,
larger values get a width sentinel). -/
def varU64 (n : Nat) : List Nat :=
  if n ≤ 250 then [n]
  else if n < 2 ^ 16 then NutsBytes.VAR16 :: beBytes 2 n
  else if n < 2 ^ 32 then NutsBytes.VAR32 :: beBytes 4 n
  else NutsBytes.VAR64 :: beBytes 8 n

/-- Parse a backend id from its byte representation: `MemId` is a big-endian
`u32`, so exactly 4 bytes. -/
def idFromBytes (bs : List Nat) : Option Nat :=
  if bs.length = 4 then some (beVal bs) else none

/-- Modelled from the spec: `Header::read` of the nuts-container crate,
whose implementation is not part of the snapshot (only its tests are).
Layout per spec section 4.D and the `REV0`/`REV1` test fixtures:
magic `"nuts-io"`, big-endian `u32` revision (0 or 1), `u32` cipher tag,
`u64`-length-prefixed IV, `u32` KDF tag, `u64`-length-prefixed secret.
With cipher `None` the secret is plaintext.  The revision-0 secret uses
fixed-int fields (magics, key, iv, userdata, settings); the revision-1
secret uses variable-int byte vectors (key, iv, top-id) after the two raw
magics, with the backend settings as the opaque trailing bytes.  A
revision-0 header is migrated by handing its userdata to the registered
migration, whose output bytes become the top-id; without a migration the
top-id stays `None`.  The in-memory revision keeps the stored value, as
pinned by the tests `read_rev0` (asserts revision 0) and `read_rev1`
(asserts revision 1).  Non-`None` ciphers (sealed secrets) are outside this
model. -/
def headerRead (migration : Option (List Nat → Except String (List Nat)))
    (buf : List Nat) : Option (HeaderM × List Nat) := do
  guard (buf.take 7 = MAGIC)
  let rest := buf.drop 7
  let (rev, rest) ← (NutsBytes.read_fix_u32 rest).toOption
  guard (rev ≤ 1)
  let (cipherTag, rest) ← (NutsBytes.read_fix_u32 rest).toOption
  guard (cipherTag = 0)
  let (_iv, rest) ← (NutsContainer.readVec8 rest).toOption
  let (kdfTag, rest) ← (NutsBytes.read_fix_u32 rest).toOption
  guard (kdfTag = 0)
  let (secret, _) ← (NutsContainer.readVec8 rest).toOption
  let (m1, s) ← (NutsBytes.read_fix_u32 secret).toOption
  let (m2, s) ← (NutsBytes.read_fix_u32 s).toOption
  guard (m1 = m2)
  if rev = 0 then do
    let (key, s) ← (NutsContainer.readVec8 s).toOption
    let (iv, s) ← (NutsContainer.readVec8 s).toOption
    let (userdata, s) ← (NutsContainer.readVec8 s).toOption
    let topId ←
      match migration with
      | Option.none => pure Option.none
      | some migrate =>
        match migrate userdata with
        | .error _ => Option.none
        | .ok bs => (idFromBytes bs).map some
    pure (⟨rev, .none, .none, key, iv, topId⟩, s)
  else do
    let (key, s) ← (readVecVar s).toOption
    let (iv, s) ← (readVecVar s).toOption
    let (topBytes, s) ← (readVecVar s).toOption
    let topId ←
      if topBytes.isEmpty then some Option.none
      else (idFromBytes topBytes).map some
    pure (⟨rev, .none, .none, key, iv, topId⟩, s)

/-- Modelled from the spec: `Header::write` of the nuts-container crate
(implementation not in the snapshot).  Emits magic, revision 1 as a
big-endian `u32`, the cipher tag, the length-prefixed IV, the KDF tag and
the length-prefixed secret; with cipher `None` the secret is plaintext:
the secret magic (`secMagic`, the RNG output) twice, then the variable-int
byte vectors key, iv and top-id, then the opaque settings bytes.  Only the
cipher-`None` path is modelled. -/
def headerWrite (h : HeaderM) (settingsEnc : List Nat) (secMagic : Nat) :
    Option (List Nat) :=
  match h.cipher with
  | .none =>
    let topBytes := match h.top_id with
      | some id => beBytes 4 id
      | Option.none => []
    let secret :=
      beBytes 4 secMagic ++ beBytes 4 secMagic ++
      varU64 h.key.length ++ h.key ++
      varU64 h.iv.length ++ h.iv ++
      varU64 topBytes.length ++ topBytes ++
      settingsEnc
    some (MAGIC ++ beBytes 4 1 ++ beBytes 4 0 ++
      beBytes 8 h.iv.length ++ h.iv ++ beBytes 4 0 ++
      beBytes 8 secret.length ++ secret)
  | _ => Option.none

/-- `Header::write` into a fixed-size buffer: the emitted bytes overwrite
the buffer from the start, the rest keeps its previous content. -/
def headerWriteBuf (h : HeaderM) (settingsEnc : List Nat) (secMagic : Nat)
    (buf : List Nat) : Option (List Nat) :=
  (headerWrite h settingsEnc secMagic).map (fun out => out ++ buf.drop out.length)

/-- The 79-byte revision-0 fixture `REV0` of nuts-container/src/header/tests.rs. -/
def REV0 : List Nat :=
  MAGIC ++
  [0, 0, 0, 0,
   0, 0, 0, 0,
   0, 0, 0, 0, 0, 0, 0, 0,
   0, 0, 0, 0,
   0, 0, 0, 0, 0, 0, 0, 44,
   0x91, 0xc0, 0xb2, 0xcf, 0x91, 0xc0, 0xb2, 0xcf,
   0, 0, 0, 0, 0, 0, 0, 0,
   0, 0, 0, 0, 0, 0, 0, 0,
   0, 0, 0, 0, 0, 0, 0, 4, 0x00, 0x00, 0x12, 0x67,
   0, 0, 0, 0, 0, 0, 0, 0]

/-- The 52-byte revision-1 fixture `REV1` of nuts-container/src/header/tests.rs. -/
def REV1 : List Nat :=
  MAGIC ++
  [0, 0, 0, 1,
   0, 0, 0, 0,
   0, 0, 0, 0, 0, 0, 0, 0,
   0, 0, 0, 0,
   0, 0, 0, 0, 0, 0, 0, 17,
   0x91, 0xc0, 0xb2, 0xcf, 0x91, 0xc0, 0xb2, 0xcf,
   0,
   0,
   4, 0x00, 0x00, 0x12, 0x67,
   0, 0]

/-- `SampleMigration` of the header tests: echoes the userdata. -/
def sampleMigration : List Nat → Except String (List Nat) := fun userdata => .ok userdata

end HeaderModel

namespace EntryModel

/-- Observable actions of `EntryMut::write` (src/entry/mut.rs), in program
order: `tree.aquire`, `container.write` of a content block, the entry flush
that persists the entry record (including its `size` field) and the archive
header flush. -/
inductive WEvent where
  | aquire (id : Nat)
  | containerWrite (id : Nat) (bytes : List Nat)
  | entryFlush (size : Nat)
  | headerFlush
deriving DecidableEq, Repr

/-- State touched by `EntryMut::write`: the container block size, the
entry's `size`, the id of the last content block, the one-block cache, and
the allocator cursor standing for `tree.aquire`. -/
structure EntrySt where
  blockSize : Nat
  size : Nat
  lastId : Nat
  cache : List Nat
  nextFresh : Nat
deriving DecidableEq, Repr

/-- Result of one `EntryMut::write` call: the returned byte count, the
successor state, and the trace of observable actions in program order. -/
structure WriteResult where
  nbytes : Nat
  state : EntrySt
  trace : List WEvent
deriving Repr

/-- `EntryMut::write` (src/entry/mut.rs lines 252-286).  At a block boundary
(`size % block_size = 0`) a fresh block is acquired and the cache reset to
zeros; otherwise the current block has `block_size - pos` bytes available.
`min(|buf|, available)` bytes are copied into the cache at `pos`, the cache
is written to the container, and only then the entry size is increased and
the entry plus the archive header are flushed. -/
def entryWrite (st : EntrySt) (buf : List Nat) : WriteResult :=
  let pos := st.size % st.blockSize
  let (st, available, pre) :=
    if pos = 0 then
      ({ st with
          lastId := st.nextFresh
          nextFresh := st.nextFresh + 1
          cache := List.replicate st.blockSize 0 },
       st.blockSize,
       [WEvent.aquire st.nextFresh])
    else
      (st, st.blockSize - pos, [])
  let nbytes := min buf.length available
  let cache := st.cache.take pos ++ buf.take nbytes ++ st.cache.drop (pos + nbytes)
  let st := { st with cache := cache, size := st.size + nbytes }
  { nbytes := nbytes
    state := st
    trace := pre ++
      [WEvent.containerWrite st.lastId cache,
       WEvent.entryFlush st.size,
       WEvent.headerFlush] }

/-- `EntryMut::write_all` (src/entry/mut.rs lines 288-296), with explicit
fuel: repeatedly writes and drops the consumed front of the buffer until it
is empty; `none` when the fuel runs out first. -/
def entryWriteAll (fuel : Nat) (st : EntrySt) (buf : List Nat) : Option EntrySt :=
  match fuel with
  | 0 => if buf.isEmpty then some st else none
  | fuel + 1 =>
    if buf.isEmpty then some st
    else
      let r := entryWrite st buf
      entryWriteAll fuel r.state (buf.drop r.nbytes)

end EntryModel

namespace StreamModel

/-- The block-stream header kept at the start of every content block:
forward and backward block ids (`none` is the null id). -/
structure Link where
  prev : Option Nat
  next : Option Nat
deriving DecidableEq, Repr

/-- The backend as seen by the stream: block id to stream link. -/
def Store := List (Nat × Link)

/-- Look a block's link up. -/
def find : Store → Nat → Option Link
  | [], _ => none
  | (k, lk) :: t, id => if k = id then some lk else find t id

/-- Persist a new `prev` pointer in block `id`. -/
def setPrevOf : Store → Nat → Option Nat → Store
  | [], _, _ => []
  | (k, lk) :: t, id, p =>
    (if k = id then (k, ⟨p, lk.next⟩) else (k, lk)) :: setPrevOf t id p

/-- Persist a new `next` pointer in block `id`. -/
def setNextOf : Store → Nat → Option Nat → Store
  | [], _, _ => []
  | (k, lk) :: t, id, n =>
    (if k = id then (k, ⟨lk.prev, n⟩) else (k, lk)) :: setNextOf t id n

/-- Acquire a block and write its stream header. -/
def addBlock (s : Store) (id : Nat) (lk : Link) : Store :=
  (id, lk) :: s

/-- Release a block. -/
def removeBlock : Store → Nat → Store
  | [], _ => []
  | (k, lk) :: t, id =>
    if k = id then removeBlock t id else (k, lk) :: removeBlock t id

/-- Modelled from the spec: `insert_before(cur)` of the block stream
(stream implementation not in the snapshot, only its tests): the new block
takes over `cur`'s backward link and points forward at `cur`; `cur`'s
backward link and, when present, the old predecessor's forward link are
repointed at the new block. -/
def insertBefore (s : Store) (cur new : Nat) : Store :=
  match find s cur with
  | none => s
  | some lk =>
    let s := addBlock s new ⟨lk.prev, some cur⟩
    let s := setPrevOf s cur (some new)
    match lk.prev with
    | none => s
    | some p => setNextOf s p (some new)

/-- Modelled from the spec: `insert_after(cur)` of the block stream: the
new block takes over `cur`'s forward link and points back at `cur`; `cur`'s
forward link and, when present, the old successor's backward link are
repointed at the new block. -/
def insertAfter (s : Store) (cur new : Nat) : Store :=
  match find s cur with
  | none => s
  | some lk =>
    let s := addBlock s new ⟨some cur, lk.next⟩
    let s := setNextOf s cur (some new)
    match lk.next with
    | none => s
    | some nid => setPrevOf s nid (some new)

/-- Modelled from the spec: `remove(cur)` of the block stream: unsplices
`cur` (its neighbours are linked to each other) and releases the block. -/
def removeStream (s : Store) (cur : Nat) : Store :=
  match find s cur with
  | none => s
  | some lk =>
    let s := removeBlock s cur
    let s := match lk.prev with
      | none => s
      | some p => setNextOf s p lk.next
    match lk.next with
    | none => s
    | some nid => setPrevOf s nid lk.prev

/-- First element of `l`, or `n` when `l` is empty (the forward boundary of
a chain segment). -/
def headOr (l : List Nat) (n : Option Nat) : Option Nat :=
  match l with
  | [] => n
  | x :: _ => some x

/-- Last element of `l`, or `p` when `l` is empty (the backward boundary of
a chain segment). -/
def lastOr (p : Option Nat) (l : List Nat) : Option Nat :=
  match l.getLast? with
  | some z => some z
  | none => p

/-- `seg s p l n`: the blocks `l` form a doubly linked segment in `s` whose
first block's `prev` is `p` and whose last block's `next` is `n`. -/
def seg (s : Store) : Option Nat → List Nat → Option Nat → Prop
  | _, [], _ => True
  | p, x :: t, n => find s x = some ⟨p, headOr t n⟩ ∧ seg s (some x) t n

/-- The blocks `l` form a whole doubly linked chain in `s`. -/
def chain (s : Store) (l : List Nat) : Prop :=
  seg s none l none ∧ l.Nodup

/-- Walk the chain forward by `next` links, collecting visited ids. -/
def walkNext (s : Store) : Nat → Option Nat → List Nat
  | 0, _ => []
  | _, none => []
  | fuel + 1, some cur =>
    cur ::
      match find s cur with
      | some lk => walkNext s fuel lk.next
      | none => []

/-- Walk the chain backward by `prev` links, collecting visited ids. -/
def walkPrev (s : Store) : Nat → Option Nat → List Nat
  | 0, _ => []
  | _, none => []
  | fuel + 1, some cur =>
    cur ::
      match find s cur with
      | some lk => walkPrev s fuel lk.prev
      | none => []

/-- Swap every block's `prev` and `next` pointers. -/
def flipStore (s : Store) : Store :=
  s.map (fun e => (e.1, ⟨e.2.next, e.2.prev⟩))

/-- One block-stream mutation: create the first block of an empty stream,
insert before or after an existing block, or remove a block. -/
inductive SOp where
  | mkFirst (new : Nat)
  | insBefore (cur new : Nat)
  | insAfter (cur new : Nat)
  | del (cur : Nat)
deriving DecidableEq, Repr

/-- Apply one mutation to the store. -/
def applyOp (s : Store) : SOp → Store
  | .mkFirst new => addBlock s new ⟨none, none⟩
  | .insBefore cur new => insertBefore s cur new
  | .insAfter cur new => insertAfter s cur new
  | .del cur => removeStream s cur

/-- Apply a sequence of mutations to the store. -/
def applyOps (s : Store) (ops : List SOp) : Store :=
  ops.foldl applyOp s

/-- Insert `new` directly before the first occurrence of `cur`. -/
def insertBeforeL : List Nat → Nat → Nat → List Nat
  | [], _, _ => []
  | x :: t, cur, new => if x = cur then new :: x :: t else x :: insertBeforeL t cur new

/-- Insert `new` directly after the first occurrence of `cur`. -/
def insertAfterL : List Nat → Nat → Nat → List Nat
  | [], _, _ => []
  | x :: t, cur, new => if x = cur then x :: new :: t else x :: insertAfterL t cur new

/-- Remove the first occurrence of `cur`. -/
def removeL : List Nat → Nat → List Nat
  | [], _ => []
  | x :: t, cur => if x = cur then t else x :: removeL t cur

/-- The abstract effect of one mutation on the chain's id list, `none` when
the mutation's preconditions (membership and freshness) fail. -/
def listApply (l : List Nat) : SOp → Option (List Nat)
  | .mkFirst new => if l = [] then some [new] else none
  | .insBefore cur new =>
    if cur ∈ l ∧ new ∉ l then some (insertBeforeL l cur new) else none
  | .insAfter cur new =>
    if cur ∈ l ∧ new ∉ l then some (insertAfterL l cur new) else none
  | .del cur => if cur ∈ l then some (removeL l cur) else none

/-- The abstract effect of a mutation sequence on the chain's id list. -/
def listApplyAll (l : List Nat) : List SOp → Option (List Nat)
  | [] => some l
  | op :: ops => (listApply l op).bind (fun l2 => listApplyAll l2 ops)

end StreamModel

/-!
## Theorems
-/

section Claims

open NutsBytes NutsContainer HeaderModel EntryModel StreamModel

/-- C2: decoding a variable-int emitted with the u128 sentinel into `u64`
does fail, but with `InvalidInteger{expected: U32, got: U128}`: the
`expected` field of the error is `U32` although the decoder reads a `u64`
(`read_var_u64`, reader.rs line 143), contradicting the specified
`InvalidInteger{expected: w', got: w}` for `w' = 64`. -/
theorem read_var_u64_var128_expected_is_u32 :
    read_var_u64 (emit_var .u128 4711) =
      .error (.invalidInteger .u32 .u128) ∧
    IntType.u32 ≠ IntType.u64 :=
  ⟨rfl, by decide⟩

/-- C8: the first `PasswordStore::value` call invokes the callback exactly
once and caches its result; a call on a store with a cached value returns
the cached value with zero callback invocations; without a callback the
call fails with `NoPassword` carrying no message; with a failing callback
it fails with `NoPassword` carrying the callback's message. -/
theorem password_store_value_behaviour (pw v : List Nat) (msg : String)
    (cb : Option (Except String (List Nat))) :
    (PasswordStore.new (some (.ok pw))).getValue =
      (.ok pw, ⟨some (.ok pw), some pw⟩, 1) ∧
    PasswordStore.getValue ⟨cb, some v⟩ = (.ok v, ⟨cb, some v⟩, 0) ∧
    (PasswordStore.new none).getValue = (.error ⟨none⟩, ⟨none, none⟩, 0) ∧
    (PasswordStore.new (some (.error msg))).getValue =
      (.error ⟨some msg⟩, ⟨some (.error msg), none⟩, 1) :=
  ⟨rfl, rfl, rfl, rfl⟩

/-- C9: `Container::read` and `Container::write` on the null block id fail
with `NullId`, perform no backend call (empty backend-op trace), and return
no modified container state. -/
theorem null_id_rejected (enc dec : List Nat → List Nat) (c : ContainerSt)
    (buf : List Nat) (bufLen : Nat) :
    containerRead dec c 0 bufLen = (.error .nullId, []) ∧
    containerWrite enc c 0 buf = (.error .nullId, []) := by
  constructor <;> simp [containerRead, containerWrite, isNull]

/-- C3 counterexample: reading the 79-byte revision-0 fixture with the
echoing migration registered does not produce an in-memory revision of 1
(the test `read_rev0` asserts revision 0). -/
theorem read_rev0_revision_is_not_one :
    ¬ ((headerRead (some sampleMigration) REV0).map (fun p => p.1.revision)
        = some 1) := by
  decide

/-- C3 amended: reading the 79-byte revision-0 fixture with the echoing
migration yields the header with in-memory revision 0 (the stored revision
is kept; the migration only supplies the top-id), cipher `None`, KDF
`None`, empty key and IV, and `top_id = Id("4711")`. -/
theorem read_rev0_migrated_header :
    headerRead (some sampleMigration) REV0 =
      some (⟨0, .none, .none, [], [], some 4711⟩, [0, 0, 0, 0, 0, 0, 0, 0]) :=
  rfl

/-- C5: writing the header with revision 1, cipher `None`, KDF `None` and
`top_id = Id("4711")` (with the fixture's secret magic) over a 52-byte
buffer pre-filled with `0x78` produces exactly the `REV1` byte sequence,
whose bytes 7..10 are the big-endian `u32` value 1 directly after the
7-byte magic. -/
theorem header_write_reproduces_rev1 :
    headerWriteBuf ⟨1, .none, .none, [], [], some 4711⟩ [0, 0] 0x91c0b2cf
        (List.replicate 52 0x78) = some REV1 ∧
    REV1.take 7 = MAGIC ∧
    (REV1.drop 7).take 4 = beBytes 4 1 ∧
    beVal (beBytes 4 1) = 1 :=
  ⟨rfl, rfl, rfl, rfl⟩

/-- C1: after a successful `Container::write(id, b)` with `|b| ≤ block_size`
on a non-null acquired id, `Container::read(id, buf)` copies
`min(|buf|, block_size)` bytes: the zero-padded plaintext block truncated to
the buffer, whose first `|b|` bytes are `b` and whose remainder is zero.
The cipher context is an abstract encrypt/decrypt pair that is
length-preserving and inverse, as the spec requires of every supported
cipher. -/
theorem container_block_roundtrip
    (enc dec : List Nat → List Nat) (c c2 : ContainerSt) (id : Nat)
    (b : List Nat) (bufLen n : Nat)
    (hdec : ∀ x, dec (enc x) = x)
    (hlen : ∀ x, (enc x).length = x.length)
    (hid : ¬ isNull id)
    (hb : b.length ≤ c.blockSize)
    (hw : (containerWrite enc c id b).1 = .ok (c2, n)) :
    (containerRead dec c2 id bufLen).1 =
      .ok ((b ++ List.replicate (c.blockSize - b.length) 0).take (min bufLen c.blockSize),
           min bufLen c.blockSize) := by
  have hpad : (if b.length < c.blockSize then
      b ++ List.replicate (c.blockSize - b.length) 0 else b)
      = b ++ List.replicate (c.blockSize - b.length) 0 := by
    rcases Nat.lt_or_ge b.length c.blockSize with h | h
    · simp [h]
    · have : c.blockSize = b.length := le_antisymm h hb
      simp [this]
  set padded := b ++ List.replicate (c.blockSize - b.length) 0 with hpadded
  have hplen : padded.length = c.blockSize := by
    simp [hpadded]
    omega
  have hclen : (enc padded).length = c.blockSize := by rw [hlen]; exact hplen
  have hc2 : c2 = { c with store := (id, (enc padded).take c.blockSize) :: c.store } := by
    simp [containerWrite, hid, hpad, backendWrite] at hw
    exact hw.1.symm
  have htake : (enc padded).take c.blockSize = enc padded := by
    rw [List.take_of_length_le (le_of_eq hclen)]
  rw [hc2]
  simp [containerRead, hid, backendRead, List.lookup, htake, hdec, hplen, Nat.min_comm]

/-- C1 witness: the round-trip at block size 4, id 1, payload `[7]` and a
10-byte read buffer. -/
theorem container_block_roundtrip_case :
    (containerRead (fun x => x) ⟨4, [(1, [7, 0, 0, 0])]⟩ 1 10).1 =
      .ok (([7] ++ List.replicate (4 - [7].length) 0).take (min 10 4), min 10 4) :=
  container_block_roundtrip (fun x => x) (fun x => x) ⟨4, []⟩ ⟨4, [(1, [7, 0, 0, 0])]⟩
    1 [7] 10 4 (fun _ => rfl) (fun _ => rfl) (by decide) (by decide) rfl

/-- C4: during `Header::read_secret` the error `WrongPassword` is returned
exactly when decryption succeeded and the two decrypted secret-magic `u32`
values differ; a failure of the cipher itself always surfaces as the
wrapped cipher error (`BadCiphertext`), never as `WrongPassword`. -/
theorem wrong_password_iff_magic_mismatch
    (dec : List Nat → Except CipherFailure (List Nat)) (buf : List Nat) :
    (read_secret dec buf = .error .wrongPassword ↔
      ∃ cbuf rest pbuf m1 r1 m2 r2,
        readVec8 buf = .ok (cbuf, rest) ∧ dec cbuf = .ok pbuf ∧
        read_fix_u32 pbuf = .ok (m1, r1) ∧
        read_fix_u32 r1 = .ok (m2, r2) ∧ m1 ≠ m2) ∧
    (∀ cbuf rest e, readVec8 buf = .ok (cbuf, rest) → dec cbuf = .error e →
      read_secret dec buf = .error (.cipher e)) := by
  constructor
  · constructor
    · intro h
      unfold read_secret at h
      split at h
      · simp at h
      case _ cbuf rest hv =>
      split at h
      · simp at h
      case _ pbuf hd =>
      split at h
      · simp at h
      case _ m1 r1 h1 =>
      split at h
      · simp at h
      case _ m2 r2 h2 =>
      split at h
      case _ hm =>
        exact ⟨cbuf, rest, pbuf, m1, r1, m2, r2, hv, hd, h1, h2, hm⟩
      · split at h <;> simp at h
    · rintro ⟨cbuf, rest, pbuf, m1, r1, m2, r2, hv, hd, h1, h2, hm⟩
      unfold read_secret
      simp only [hv, hd, h1, h2]
      simp [hm]
  · intro cbuf rest e hv hd
    unfold read_secret
    simp only [hv, hd]

/-- C4 witness: a plaintext secret whose magics are 1 and 2 is rejected as
`WrongPassword`. -/
theorem wrong_password_case :
    read_secret (fun _ => .ok [0, 0, 0, 1, 0, 0, 0, 2]) [0, 0, 0, 0, 0, 0, 0, 3, 9, 9, 9] =
      .error .wrongPassword :=
  (wrong_password_iff_magic_mismatch (fun _ => .ok [0, 0, 0, 1, 0, 0, 0, 2])
      [0, 0, 0, 0, 0, 0, 0, 3, 9, 9, 9]).1.mpr
    ⟨[9, 9, 9], [], [0, 0, 0, 1, 0, 0, 0, 2], 1, [0, 0, 0, 2], 2, [],
     rfl, rfl, rfl, rfl, by decide⟩

/-- C7: in every `EntryMut::write` call the trace of observable actions is
some prefix containing no entry flush (at most a block acquisition),
followed by the container write of the content block and only then the
entry flush carrying the increased size and the archive-header flush; the
written block carries the newly appended bytes at the write position. -/
theorem entry_write_block_before_size
    (st : EntrySt) (buf : List Nat)
    (hbs : 0 < st.blockSize) (hcache : st.cache.length = st.blockSize) :
    ∃ pre id bytes,
      (entryWrite st buf).trace =
        pre ++ [WEvent.containerWrite id bytes,
                WEvent.entryFlush (st.size + (entryWrite st buf).nbytes),
                WEvent.headerFlush] ∧
      (∀ e ∈ pre, ∀ sz, e ≠ WEvent.entryFlush sz) ∧
      (bytes.drop (st.size % st.blockSize)).take (entryWrite st buf).nbytes =
        buf.take (entryWrite st buf).nbytes := by
  by_cases hpos : st.size % st.blockSize = 0
  · refine ⟨[WEvent.aquire st.nextFresh], st.nextFresh,
      buf.take (min buf.length st.blockSize) ++
        (List.replicate st.blockSize 0).drop (0 + min buf.length st.blockSize), ?_, ?_, ?_⟩
    · simp [entryWrite, hpos]
    · intro e he sz; simp at he; simp [he]
    · rw [hpos]
      simp [entryWrite, hpos]
  · refine ⟨[], st.lastId,
      st.cache.take (st.size % st.blockSize) ++
        (buf.take (min buf.length (st.blockSize - st.size % st.blockSize)) ++
         st.cache.drop (st.size % st.blockSize + min buf.length (st.blockSize - st.size % st.blockSize))),
      ?_, ?_, ?_⟩
    · simp [entryWrite, hpos]
    · intro e he sz; simp at he
    · have hlt : st.size % st.blockSize < st.blockSize := Nat.mod_lt _ hbs
      have h1 : (st.cache.take (st.size % st.blockSize)).length = st.size % st.blockSize := by
        simp [hcache]; omega
      simp only [entryWrite, hpos, if_neg hpos, ite_false]
      rw [List.drop_left' h1]
      rw [List.take_left']
      simp [entryWrite, hpos]

/-- C7 witness: a write of `[1,2,3]` into a partially filled block (size 6,
block size 4). -/
theorem entry_write_block_before_size_case :
    ∃ pre id bytes,
      (entryWrite ⟨4, 6, 2, [9, 9, 9, 9], 10⟩ [1, 2, 3]).trace =
        pre ++ [WEvent.containerWrite id bytes,
                WEvent.entryFlush ((⟨4, 6, 2, [9, 9, 9, 9], 10⟩ : EntrySt).size +
                  (entryWrite ⟨4, 6, 2, [9, 9, 9, 9], 10⟩ [1, 2, 3]).nbytes),
                WEvent.headerFlush] ∧
      (∀ e ∈ pre, ∀ sz, e ≠ WEvent.entryFlush sz) ∧
      (bytes.drop ((⟨4, 6, 2, [9, 9, 9, 9], 10⟩ : EntrySt).size %
          (⟨4, 6, 2, [9, 9, 9, 9], 10⟩ : EntrySt).blockSize)).take
          (entryWrite ⟨4, 6, 2, [9, 9, 9, 9], 10⟩ [1, 2, 3]).nbytes =
        ([1, 2, 3] : List Nat).take (entryWrite ⟨4, 6, 2, [9, 9, 9, 9], 10⟩ [1, 2, 3]).nbytes :=
  entry_write_block_before_size ⟨4, 6, 2, [9, 9, 9, 9], 10⟩ [1, 2, 3] (by decide) rfl

/-- `entryWrite` keeps the block size. -/
theorem entryWrite_blockSize (st : EntrySt) (buf : List Nat) :
    (entryWrite st buf).state.blockSize = st.blockSize := by
  by_cases hpos : st.size % st.blockSize = 0 <;> simp [entryWrite, hpos]

/-- The byte count returned by `entryWrite` is `min(|buf|, available)`. -/
theorem entryWrite_nbytes_def (st : EntrySt) (buf : List Nat) :
    (entryWrite st buf).nbytes =
      min buf.length
        (if st.size % st.blockSize = 0 then st.blockSize
         else st.blockSize - st.size % st.blockSize) := by
  by_cases hpos : st.size % st.blockSize = 0 <;> simp [entryWrite, hpos]

/-- A write of a non-empty buffer writes at least one byte. -/
theorem entryWrite_nbytes_pos (st : EntrySt) (buf : List Nat)
    (hbs : 1 ≤ st.blockSize) (hbuf : buf ≠ []) :
    1 ≤ (entryWrite st buf).nbytes := by
  rw [entryWrite_nbytes_def]
  have hlt : st.size % st.blockSize < st.blockSize := Nat.mod_lt _ hbs
  have : 0 < buf.length := List.length_pos.mpr hbuf
  by_cases hpos : st.size % st.blockSize = 0 <;> simp [hpos] <;> omega

/-- `entryWriteAll` succeeds with fuel `|buf|`. -/
theorem entryWriteAll_isSome (fuel : Nat) :
    ∀ (st : EntrySt) (buf : List Nat), buf.length ≤ fuel → 1 ≤ st.blockSize →
      (entryWriteAll fuel st buf).isSome := by
  induction fuel with
  | zero =>
    intro st buf hlen hbs
    have : buf = [] := List.length_eq_zero.mp (Nat.le_zero.mp hlen)
    simp [entryWriteAll, this]
  | succ fuel ih =>
    intro st buf hlen hbs
    by_cases hbuf : buf = []
    · simp [entryWriteAll, hbuf]
    · rw [entryWriteAll]
      simp only [List.isEmpty_iff, hbuf, if_false]
      apply ih
      · have hn : 1 ≤ (entryWrite st buf).nbytes := entryWrite_nbytes_pos st buf hbs hbuf
        have : 0 < buf.length := List.length_pos.mpr hbuf
        simp only [List.length_drop]
        omega
      · rw [entryWrite_blockSize]; exact hbs

/-- C10: with a positive block size, `EntryMut::write` on a non-empty
buffer returns `min(|buf|, available)` with `available ≥ 1` (hence writes
at least one byte), and `EntryMut::write_all` finishes within `|buf|`
rounds. -/
theorem entry_write_progress_and_write_all_terminates
    (st : EntrySt) (buf : List Nat) (hbs : 1 ≤ st.blockSize) (hbuf : buf ≠ []) :
    (entryWrite st buf).nbytes =
      min buf.length
        (if st.size % st.blockSize = 0 then st.blockSize
         else st.blockSize - st.size % st.blockSize) ∧
    1 ≤ (if st.size % st.blockSize = 0 then st.blockSize
         else st.blockSize - st.size % st.blockSize) ∧
    1 ≤ (entryWrite st buf).nbytes ∧
    (entryWriteAll buf.length st buf).isSome := by
  have hlt : st.size % st.blockSize < st.blockSize := Nat.mod_lt _ hbs
  refine ⟨entryWrite_nbytes_def st buf, ?_, entryWrite_nbytes_pos st buf hbs hbuf,
    entryWriteAll_isSome buf.length st buf le_rfl hbs⟩
  by_cases hpos : st.size % st.blockSize = 0 <;> simp [hpos] <;> omega

/-- C10 witness: progress and termination at block size 4, entry size 6,
buffer `[1,2,3]`. -/
theorem entry_write_progress_case :
    1 ≤ 4 ∧
    ((entryWrite ⟨4, 6, 2, [9, 9, 9, 9], 10⟩ [1, 2, 3]).nbytes =
      min ([1, 2, 3] : List Nat).length
        (if (⟨4, 6, 2, [9, 9, 9, 9], 10⟩ : EntrySt).size %
            (⟨4, 6, 2, [9, 9, 9, 9], 10⟩ : EntrySt).blockSize = 0
         then (⟨4, 6, 2, [9, 9, 9, 9], 10⟩ : EntrySt).blockSize
         else (⟨4, 6, 2, [9, 9, 9, 9], 10⟩ : EntrySt).blockSize -
           (⟨4, 6, 2, [9, 9, 9, 9], 10⟩ : EntrySt).size %
             (⟨4, 6, 2, [9, 9, 9, 9], 10⟩ : EntrySt).blockSize) ∧
     1 ≤ (if (⟨4, 6, 2, [9, 9, 9, 9], 10⟩ : EntrySt).size %
            (⟨4, 6, 2, [9, 9, 9, 9], 10⟩ : EntrySt).blockSize = 0
         then (⟨4, 6, 2, [9, 9, 9, 9], 10⟩ : EntrySt).blockSize
         else (⟨4, 6, 2, [9, 9, 9, 9], 10⟩ : EntrySt).blockSize -
           (⟨4, 6, 2, [9, 9, 9, 9], 10⟩ : EntrySt).size %
             (⟨4, 6, 2, [9, 9, 9, 9], 10⟩ : EntrySt).blockSize) ∧
     1 ≤ (entryWrite ⟨4, 6, 2, [9, 9, 9, 9], 10⟩ [1, 2, 3]).nbytes ∧
     (entryWriteAll ([1, 2, 3] : List Nat).length ⟨4, 6, 2, [9, 9, 9, 9], 10⟩ [1, 2, 3]).isSome) :=
  ⟨by decide,
   entry_write_progress_and_write_all_terminates ⟨4, 6, 2, [9, 9, 9, 9], 10⟩ [1, 2, 3]
     (by decide) (by decide)⟩

end Claims
